import Mathlib

/-!
Shallow embedding of the `OtaUpdateFHE` contract
(`src/contracts/otaUpdateFHE.sol`) and proofs about its specification.

Modelling conventions:
* Addresses, timestamps, `uint256` words and `euint32` ciphertext handles
  are `Nat` (address `0` is the zero address).
* A Solidity revert is `Except.error e`: the transaction produces no new
  state and no events, so "fails and mutates nothing" is by construction.
* Events are accumulated in an append-only `eventLog` field (the audit log).
* `keccak256(abi.encode(cts, address(this)))` is modelled by an injective,
  never-zero fingerprint built from `Nat.pair`; the only facts used about
  it are injectivity and that it differs from the zero word `bytes32(0)`,
  both of which hold of keccak256 for all practical purposes.
* The external FHE oracle is modelled by passing the oracle-chosen
  `requestId` as an argument to `requestBatchDecryption`, and the verdict
  of `FHE.checkSignatures` as a function argument to `myCallback`.
* An `euint32` handle is initialized iff its underlying word is nonzero
  (an unset ciphertext slot is the zero word).
-/

namespace OtaUpdateFHE

/-- Revert reasons of the contract. `zeroNewOwner` models the
`require(newOwner != address(0), ...)` string revert in
`transferOwnership`; `abiDecodeError` models the revert of
`abi.decode` on a too-short `cleartexts` buffer. -/
inductive Err where
  | notOwner
  | notProvider
  | pausedState
  | cooldownActive
  | batchClosedOrInvalid
  | invalidBatchId
  | replayAttempt
  | stateMismatch
  | decryptionFailed
  | notInitialized
  | invalidParameter
  | zeroNewOwner
  | abiDecodeError
deriving DecidableEq, Repr

/-- Events emitted by the contract (the audit log entries). -/
inductive Event where
  | OwnershipTransferred (previousOwner newOwner : Nat)
  | ProviderAdded (provider : Nat)
  | ProviderRemoved (provider : Nat)
  | Paused (account : Nat)
  | Unpaused (account : Nat)
  | CooldownSecondsSet (oldValue newValue : Nat)
  | BatchOpened (batchId timestamp : Nat)
  | BatchClosed (batchId timestamp : Nat)
  | UpdateSubmitted (batchId provider pkg veh timestamp : Nat)
  | DecryptionRequested (requestId batchId stateHash : Nat)
  | DecryptionCompleted (requestId batchId pkg veh timestamp : Nat)
deriving DecidableEq, Repr

/-- The `Batch` struct. -/
structure Batch where
  id : Nat
  isOpen : Bool
  updatePackageIdEncrypted : Nat
  vehicleIdEncrypted : Nat
  timestamp : Nat
deriving DecidableEq, Repr

/-- Default value of a `Batch` storage slot (all fields zero). -/
def Batch.empty : Batch := ⟨0, false, 0, 0, 0⟩

/-- The `DecryptionContext` struct. -/
structure DecryptionContext where
  batchId : Nat
  stateHash : Nat
  processed : Bool
deriving DecidableEq, Repr

/-- Default value of a `DecryptionContext` storage slot. -/
def DecryptionContext.empty : DecryptionContext := ⟨0, 0, false⟩

/-- Point update of a `Nat`-keyed storage mapping. -/
def setMap {α : Type} (f : Nat → α) (k : Nat) (v : α) : Nat → α :=
  fun x => if x = k then v else f x

/-- Full storage state of the contract, plus the address of the deployed
instance (`address(this)`, used by `_hashCiphertexts`) and the emitted
event log. -/
structure ContractState where
  selfAddr : Nat
  owner : Nat
  isProvider : Nat → Bool
  paused : Bool
  cooldownSeconds : Nat
  lastSubmissionTime : Nat → Nat
  lastDecryptionRequestTime : Nat → Nat
  batches : Nat → Batch
  currentBatchId : Nat
  totalBatches : Nat
  decryptionContexts : Nat → DecryptionContext
  eventLog : List Event

/-- Model of `euint32.isInitialized()`: an unset ciphertext handle is the
zero word, any handle produced by the FHE coprocessor is nonzero. -/
def isInitializedHandle (h : Nat) : Bool := h ≠ 0

/-- Model of `_hashCiphertexts`: `keccak256(abi.encode(cts, address(this)))`
as an injective fingerprint of the ciphertext list and the contract
address that is never the zero word. -/
def hashCiphertexts (cts : List Nat) (selfAddr : Nat) : Nat :=
  Nat.pair (cts.foldr Nat.pair 0) selfAddr + 1

/-- The constructor: deployer becomes owner and the first provider,
cooldown 60 seconds, batch counter starts at 1. -/
def deploy (selfAddr deployer : Nat) : ContractState :=
  { selfAddr := selfAddr
    owner := deployer
    isProvider := setMap (fun _ => false) deployer true
    paused := false
    cooldownSeconds := 60
    lastSubmissionTime := fun _ => 0
    lastDecryptionRequestTime := fun _ => 0
    batches := fun _ => Batch.empty
    currentBatchId := 1
    totalBatches := 0
    decryptionContexts := fun _ => DecryptionContext.empty
    eventLog := [Event.ProviderAdded deployer] }

/-- `transferOwnership(newOwner)`: `onlyOwner`, rejects the zero address,
emits `OwnershipTransferred`, then assigns `owner`. -/
def transferOwnership (s : ContractState) (sender newOwner : Nat) :
    Except Err ContractState :=
  if sender ≠ s.owner then .error .notOwner
  else if newOwner = 0 then .error .zeroNewOwner
  else .ok { s with
    owner := newOwner
    eventLog := s.eventLog ++ [Event.OwnershipTransferred s.owner newOwner] }

/-- `addProvider(provider)`: `onlyOwner`, rejects the zero address,
idempotent (no event when already a provider). -/
def addProvider (s : ContractState) (sender provider : Nat) :
    Except Err ContractState :=
  if sender ≠ s.owner then .error .notOwner
  else if provider = 0 then .error .invalidParameter
  else if s.isProvider provider then .ok s
  else .ok { s with
    isProvider := setMap s.isProvider provider true
    eventLog := s.eventLog ++ [Event.ProviderAdded provider] }

/-- `removeProvider(provider)`: `onlyOwner`, idempotent. -/
def removeProvider (s : ContractState) (sender provider : Nat) :
    Except Err ContractState :=
  if sender ≠ s.owner then .error .notOwner
  else if s.isProvider provider then .ok { s with
    isProvider := setMap s.isProvider provider false
    eventLog := s.eventLog ++ [Event.ProviderRemoved provider] }
  else .ok s

/-- `pause()`: `onlyOwner whenNotPaused`. -/
def pause (s : ContractState) (sender : Nat) : Except Err ContractState :=
  if sender ≠ s.owner then .error .notOwner
  else if s.paused then .error .pausedState
  else .ok { s with paused := true, eventLog := s.eventLog ++ [Event.Paused sender] }

/-- `unpause()`: `onlyOwner`, reverts `PausedState` when already unpaused. -/
def unpause (s : ContractState) (sender : Nat) : Except Err ContractState :=
  if sender ≠ s.owner then .error .notOwner
  else if !s.paused then .error .pausedState
  else .ok { s with paused := false, eventLog := s.eventLog ++ [Event.Unpaused sender] }

/-- `setCooldownSeconds(newCooldownSeconds)`: `onlyOwner` only — note it is
NOT gated by `whenNotPaused` in the source. -/
def setCooldownSeconds (s : ContractState) (sender newCooldownSeconds : Nat) :
    Except Err ContractState :=
  if sender ≠ s.owner then .error .notOwner
  else .ok { s with
    cooldownSeconds := newCooldownSeconds
    eventLog := s.eventLog ++ [Event.CooldownSecondsSet s.cooldownSeconds newCooldownSeconds] }

/-- `openBatch()`: `onlyProvider whenNotPaused respectCooldown(sender,
lastSubmissionTime)`; creates the batch at `currentBatchId` with empty
handles and records the sender's submission time. -/
def openBatch (s : ContractState) (sender now : Nat) : Except Err ContractState :=
  if s.isProvider sender = false then .error .notProvider
  else if s.paused = true then .error .pausedState
  else if now < s.lastSubmissionTime sender + s.cooldownSeconds then .error .cooldownActive
  else if (s.batches s.currentBatchId).isOpen = true then .error .batchClosedOrInvalid
  else .ok { s with
    batches := setMap s.batches s.currentBatchId
      ⟨s.currentBatchId, true, 0, 0, now⟩
    totalBatches := s.totalBatches + 1
    lastSubmissionTime := setMap s.lastSubmissionTime sender now
    eventLog := s.eventLog ++ [Event.BatchOpened s.currentBatchId now] }

/-- `closeBatch(batchId)`: `onlyProvider whenNotPaused` (no cooldown);
closes the active batch and increments `currentBatchId`. -/
def closeBatch (s : ContractState) (sender now batchId : Nat) :
    Except Err ContractState :=
  if s.isProvider sender = false then .error .notProvider
  else if s.paused = true then .error .pausedState
  else if batchId ≠ s.currentBatchId then .error .invalidBatchId
  else if (s.batches batchId).isOpen = false then .error .batchClosedOrInvalid
  else .ok { s with
    batches := setMap s.batches batchId
      { s.batches batchId with isOpen := false, timestamp := now }
    eventLog := s.eventLog ++ [Event.BatchClosed batchId now]
    currentBatchId := s.currentBatchId + 1 }

/-- `submitUpdate(batchId, encryptedUpdatePackageId, encryptedVehicleId)`:
`onlyProvider whenNotPaused respectCooldown(sender, lastSubmissionTime)`;
overwrites the open active batch's handles. -/
def submitUpdate (s : ContractState) (sender now batchId pkgHandle vehHandle : Nat) :
    Except Err ContractState :=
  if s.isProvider sender = false then .error .notProvider
  else if s.paused = true then .error .pausedState
  else if now < s.lastSubmissionTime sender + s.cooldownSeconds then .error .cooldownActive
  else if batchId ≠ s.currentBatchId then .error .invalidBatchId
  else if (s.batches batchId).isOpen = false then .error .batchClosedOrInvalid
  else if isInitializedHandle pkgHandle = false then .error .notInitialized
  else if isInitializedHandle vehHandle = false then .error .notInitialized
  else .ok { s with
    batches := setMap s.batches batchId
      { s.batches batchId with
        updatePackageIdEncrypted := pkgHandle
        vehicleIdEncrypted := vehHandle
        timestamp := now }
    lastSubmissionTime := setMap s.lastSubmissionTime sender now
    eventLog := s.eventLog ++ [Event.UpdateSubmitted batchId sender pkgHandle vehHandle now] }

/-- `requestBatchDecryption(batchId)`: `onlyProvider whenNotPaused
respectCooldown(sender, lastDecryptionRequestTime)`. The source guard is
`if (batchId >= currentBatchId || !batches[batchId].isOpen) revert
InvalidBatchId()` — i.e. it demands `batchId < currentBatchId` AND that
the batch be open. `requestId` is the value returned by the external
`FHE.requestDecryption` call. -/
def requestBatchDecryption (s : ContractState) (sender now batchId requestId : Nat) :
    Except Err ContractState :=
  if s.isProvider sender = false then .error .notProvider
  else if s.paused = true then .error .pausedState
  else if now < s.lastDecryptionRequestTime sender + s.cooldownSeconds then
    .error .cooldownActive
  else if s.currentBatchId ≤ batchId then .error .invalidBatchId
  else if (s.batches batchId).isOpen = false then .error .invalidBatchId
  else if isInitializedHandle (s.batches batchId).updatePackageIdEncrypted = false then
    .error .notInitialized
  else if isInitializedHandle (s.batches batchId).vehicleIdEncrypted = false then
    .error .notInitialized
  else
    .ok { s with
      decryptionContexts := setMap s.decryptionContexts requestId
        ⟨batchId,
         hashCiphertexts
           [(s.batches batchId).updatePackageIdEncrypted,
            (s.batches batchId).vehicleIdEncrypted] s.selfAddr,
         false⟩
      lastDecryptionRequestTime := setMap s.lastDecryptionRequestTime sender now
      eventLog := s.eventLog ++
        [Event.DecryptionRequested requestId batchId
          (hashCiphertexts
            [(s.batches batchId).updatePackageIdEncrypted,
             (s.batches batchId).vehicleIdEncrypted] s.selfAddr)] }

/-- `myCallback(requestId, cleartexts, proof)`: replay check, integrity
digest check against the referenced batch's current handles, signature
check (the external `FHE.checkSignatures` verdict is supplied by
`checkSignatures`), decode of the two 32-byte words (`cleartexts` is the
list of decoded words), then the single atomic completion. -/
def myCallback (s : ContractState) (now requestId : Nat)
    (cleartexts proof : List Nat)
    (checkSignatures : Nat → List Nat → List Nat → Bool) :
    Except Err ContractState :=
  if (s.decryptionContexts requestId).processed = true then .error .replayAttempt
  else if hashCiphertexts
      [(s.batches (s.decryptionContexts requestId).batchId).updatePackageIdEncrypted,
       (s.batches (s.decryptionContexts requestId).batchId).vehicleIdEncrypted] s.selfAddr
      ≠ (s.decryptionContexts requestId).stateHash then .error .stateMismatch
  else if checkSignatures requestId cleartexts proof = false then .error .decryptionFailed
  else
    match cleartexts with
    | pkg :: veh :: _ =>
      .ok { s with
        decryptionContexts := setMap s.decryptionContexts requestId
          { s.decryptionContexts requestId with processed := true }
        eventLog := s.eventLog ++
          [Event.DecryptionCompleted requestId
            (s.decryptionContexts requestId).batchId pkg veh now] }
    | _ => .error .abiDecodeError

/-- One successful transaction of any of the contract's external
functions, with all call arguments and the external-oracle inputs chosen
arbitrarily. -/
inductive Step : ContractState → ContractState → Prop where
  | transferOwnership (s s' : ContractState) (a b : Nat) :
      transferOwnership s a b = .ok s' → Step s s'
  | addProvider (s s' : ContractState) (a p : Nat) :
      addProvider s a p = .ok s' → Step s s'
  | removeProvider (s s' : ContractState) (a p : Nat) :
      removeProvider s a p = .ok s' → Step s s'
  | pause (s s' : ContractState) (a : Nat) :
      pause s a = .ok s' → Step s s'
  | unpause (s s' : ContractState) (a : Nat) :
      unpause s a = .ok s' → Step s s'
  | setCooldownSeconds (s s' : ContractState) (a v : Nat) :
      setCooldownSeconds s a v = .ok s' → Step s s'
  | openBatch (s s' : ContractState) (a now : Nat) :
      openBatch s a now = .ok s' → Step s s'
  | closeBatch (s s' : ContractState) (a now bid : Nat) :
      closeBatch s a now bid = .ok s' → Step s s'
  | submitUpdate (s s' : ContractState) (a now bid p v : Nat) :
      submitUpdate s a now bid p v = .ok s' → Step s s'
  | requestBatchDecryption (s s' : ContractState) (a now bid rid : Nat) :
      requestBatchDecryption s a now bid rid = .ok s' → Step s s'
  | myCallback (s s' : ContractState) (now rid : Nat) (clr prf : List Nat)
      (chk : Nat → List Nat → List Nat → Bool) :
      myCallback s now rid clr prf chk = .ok s' → Step s s'

/-- States reachable from some deployment by successful transactions. -/
inductive Reachable : ContractState → Prop where
  | deploy (selfAddr deployer : Nat) : Reachable (deploy selfAddr deployer)
  | step {s s' : ContractState} : Reachable s → Step s s' → Reachable s'

/-! Basic helper lemmas. -/

theorem bool_ne_false {b : Bool} (h : ¬ b = false) : b = true := by
  cases b
  · exact absurd rfl h
  · rfl

theorem bool_ne_true {b : Bool} (h : ¬ b = true) : b = false := by
  cases b
  · rfl
  · exact absurd rfl h

/-- The modelled keccak fingerprint is never the zero word. -/
theorem hashCiphertexts_ne_zero (cts : List Nat) (selfAddr : Nat) :
    hashCiphertexts cts selfAddr ≠ 0 :=
  Nat.succ_ne_zero _

/-- The modelled keccak fingerprint is injective on two-element
ciphertext lists together with the contract address. -/
theorem hashCiphertexts_inj {a b c d sa sb : Nat}
    (h : hashCiphertexts [a, b] sa = hashCiphertexts [c, d] sb) :
    a = c ∧ b = d ∧ sa = sb := by
  unfold hashCiphertexts at h
  simp only [List.foldr] at h
  have h1 := Nat.succ_injective h
  rw [Nat.pair_eq_pair] at h1
  have h2 := h1.1
  rw [Nat.pair_eq_pair] at h2
  have h3 := h2.2
  rw [Nat.pair_eq_pair] at h3
  exact ⟨h2.1, h3.1, h1.2⟩

/-! Inversion lemmas: each characterizes the successful run of one
contract function. -/

theorem transferOwnership_ok {s s' : ContractState} {a b : Nat}
    (h : transferOwnership s a b = .ok s') :
    a = s.owner ∧ b ≠ 0 ∧
    s' = { s with
      owner := b
      eventLog := s.eventLog ++ [Event.OwnershipTransferred s.owner b] } := by
  unfold transferOwnership at h
  split_ifs at h with h1 h2 <;> try exact Except.noConfusion h
  injection h with h
  exact ⟨not_not.mp h1, h2, h.symm⟩

theorem addProvider_ok {s s' : ContractState} {a p : Nat}
    (h : addProvider s a p = .ok s') :
    a = s.owner ∧
    (s' = s ∨
     s' = { s with
       isProvider := setMap s.isProvider p true
       eventLog := s.eventLog ++ [Event.ProviderAdded p] }) := by
  unfold addProvider at h
  split_ifs at h with h1 h2 h3 <;> try exact Except.noConfusion h
  · injection h with h
    exact ⟨not_not.mp h1, Or.inl h.symm⟩
  · injection h with h
    exact ⟨not_not.mp h1, Or.inr h.symm⟩

theorem removeProvider_ok {s s' : ContractState} {a p : Nat}
    (h : removeProvider s a p = .ok s') :
    a = s.owner ∧
    (s' = s ∨
     s' = { s with
       isProvider := setMap s.isProvider p false
       eventLog := s.eventLog ++ [Event.ProviderRemoved p] }) := by
  unfold removeProvider at h
  split_ifs at h with h1 h2 <;> try exact Except.noConfusion h
  · injection h with h
    exact ⟨not_not.mp h1, Or.inr h.symm⟩
  · injection h with h
    exact ⟨not_not.mp h1, Or.inl h.symm⟩

theorem pause_ok {s s' : ContractState} {a : Nat}
    (h : pause s a = .ok s') :
    a = s.owner ∧ s.paused = false ∧
    s' = { s with paused := true, eventLog := s.eventLog ++ [Event.Paused a] } := by
  unfold pause at h
  split_ifs at h with h1 h2 <;> try exact Except.noConfusion h
  injection h with h
  exact ⟨not_not.mp h1, bool_ne_true h2, h.symm⟩

theorem unpause_ok {s s' : ContractState} {a : Nat}
    (h : unpause s a = .ok s') :
    a = s.owner ∧ s.paused = true ∧
    s' = { s with paused := false, eventLog := s.eventLog ++ [Event.Unpaused a] } := by
  unfold unpause at h
  split_ifs at h with h1 h2 <;> try exact Except.noConfusion h
  injection h with h
  refine ⟨not_not.mp h1, ?_, h.symm⟩
  have := bool_ne_true h2
  simpa using this

theorem setCooldownSeconds_ok {s s' : ContractState} {a v : Nat}
    (h : setCooldownSeconds s a v = .ok s') :
    a = s.owner ∧
    s' = { s with
      cooldownSeconds := v
      eventLog := s.eventLog ++ [Event.CooldownSecondsSet s.cooldownSeconds v] } := by
  unfold setCooldownSeconds at h
  split_ifs at h with h1 <;> try exact Except.noConfusion h
  injection h with h
  exact ⟨not_not.mp h1, h.symm⟩

theorem openBatch_ok {s s' : ContractState} {a now : Nat}
    (h : openBatch s a now = .ok s') :
    s.isProvider a = true ∧ s.paused = false ∧
    s.lastSubmissionTime a + s.cooldownSeconds ≤ now ∧
    (s.batches s.currentBatchId).isOpen = false ∧
    s' = { s with
      batches := setMap s.batches s.currentBatchId
        ⟨s.currentBatchId, true, 0, 0, now⟩
      totalBatches := s.totalBatches + 1
      lastSubmissionTime := setMap s.lastSubmissionTime a now
      eventLog := s.eventLog ++ [Event.BatchOpened s.currentBatchId now] } := by
  unfold openBatch at h
  split_ifs at h with h1 h2 h3 h4 <;> try exact Except.noConfusion h
  injection h with h
  exact ⟨bool_ne_false h1, bool_ne_true h2, Nat.not_lt.mp h3, bool_ne_true h4, h.symm⟩

theorem closeBatch_ok {s s' : ContractState} {a now bid : Nat}
    (h : closeBatch s a now bid = .ok s') :
    s.isProvider a = true ∧ s.paused = false ∧
    bid = s.currentBatchId ∧ (s.batches bid).isOpen = true ∧
    s' = { s with
      batches := setMap s.batches bid
        { s.batches bid with isOpen := false, timestamp := now }
      eventLog := s.eventLog ++ [Event.BatchClosed bid now]
      currentBatchId := s.currentBatchId + 1 } := by
  unfold closeBatch at h
  split_ifs at h with h1 h2 h3 h4 <;> try exact Except.noConfusion h
  injection h with h
  exact ⟨bool_ne_false h1, bool_ne_true h2, not_not.mp h3, bool_ne_false h4, h.symm⟩

theorem submitUpdate_ok {s s' : ContractState} {a now bid p v : Nat}
    (h : submitUpdate s a now bid p v = .ok s') :
    s.isProvider a = true ∧ s.paused = false ∧
    s.lastSubmissionTime a + s.cooldownSeconds ≤ now ∧
    bid = s.currentBatchId ∧ (s.batches bid).isOpen = true ∧
    p ≠ 0 ∧ v ≠ 0 ∧
    s' = { s with
      batches := setMap s.batches bid
        { s.batches bid with
          updatePackageIdEncrypted := p
          vehicleIdEncrypted := v
          timestamp := now }
      lastSubmissionTime := setMap s.lastSubmissionTime a now
      eventLog := s.eventLog ++ [Event.UpdateSubmitted bid a p v now] } := by
  unfold submitUpdate at h
  split_ifs at h with h1 h2 h3 h4 h5 h6 h7 <;> try exact Except.noConfusion h
  injection h with h
  have hp : p ≠ 0 := by
    have := bool_ne_false h6
    simpa [isInitializedHandle] using this
  have hv : v ≠ 0 := by
    have := bool_ne_false h7
    simpa [isInitializedHandle] using this
  exact ⟨bool_ne_false h1, bool_ne_true h2, Nat.not_lt.mp h3, not_not.mp h4,
    bool_ne_false h5, hp, hv, h.symm⟩

theorem requestBatchDecryption_ok {s s' : ContractState} {a now bid rid : Nat}
    (h : requestBatchDecryption s a now bid rid = .ok s') :
    bid < s.currentBatchId ∧ (s.batches bid).isOpen = true ∧
    s' = { s with
      decryptionContexts := setMap s.decryptionContexts rid
        ⟨bid,
         hashCiphertexts
           [(s.batches bid).updatePackageIdEncrypted,
            (s.batches bid).vehicleIdEncrypted] s.selfAddr,
         false⟩
      lastDecryptionRequestTime := setMap s.lastDecryptionRequestTime a now
      eventLog := s.eventLog ++
        [Event.DecryptionRequested rid bid
          (hashCiphertexts
            [(s.batches bid).updatePackageIdEncrypted,
             (s.batches bid).vehicleIdEncrypted] s.selfAddr)] } := by
  unfold requestBatchDecryption at h
  split_ifs at h with h1 h2 h3 h4 h5 h6 h7 <;> try exact Except.noConfusion h
  injection h with h
  exact ⟨Nat.not_le.mp h4, bool_ne_false h5, h.symm⟩

theorem myCallback_ok {s s' : ContractState} {now rid : Nat}
    {clr prf : List Nat} {chk : Nat → List Nat → List Nat → Bool}
    (h : myCallback s now rid clr prf chk = .ok s') :
    (s.decryptionContexts rid).processed = false ∧
    hashCiphertexts
      [(s.batches (s.decryptionContexts rid).batchId).updatePackageIdEncrypted,
       (s.batches (s.decryptionContexts rid).batchId).vehicleIdEncrypted] s.selfAddr
      = (s.decryptionContexts rid).stateHash ∧
    ∃ pkg veh rest, clr = pkg :: veh :: rest ∧
      s' = { s with
        decryptionContexts := setMap s.decryptionContexts rid
          { s.decryptionContexts rid with processed := true }
        eventLog := s.eventLog ++
          [Event.DecryptionCompleted rid (s.decryptionContexts rid).batchId pkg veh now] } := by
  unfold myCallback at h
  split_ifs at h with h1 h2 h3 <;> try exact Except.noConfusion h
  rcases clr with _ | ⟨pkg, _ | ⟨veh, rest⟩⟩
  · exact Except.noConfusion h
  · exact Except.noConfusion h
  · injection h with h
    exact ⟨bool_ne_true h1, not_not.mp h2, pkg, veh, rest, rfl, h.symm⟩

/-! The batch-lifecycle invariant and its preservation. -/

/-- Inductive state invariant: the batch counter starts at 1 and only the
batch at `currentBatchId` can be open; `totalBatches` tracks the counter
according to whether the active slot is open. -/
def StateInv (s : ContractState) : Prop :=
  1 ≤ s.currentBatchId ∧
  (∀ id : Nat, (s.batches id).isOpen = true → id = s.currentBatchId) ∧
  s.totalBatches =
    (if (s.batches s.currentBatchId).isOpen = true
     then s.currentBatchId else s.currentBatchId - 1)

theorem stateInv_deploy (sa d : Nat) : StateInv (deploy sa d) := by
  refine ⟨le_refl 1, ?_, ?_⟩
  · intro id hid
    simp [deploy, Batch.empty] at hid
  · simp [deploy, Batch.empty]

theorem stateInv_step {s s' : ContractState} (hinv : StateInv s)
    (hstep : Step s s') : StateInv s' := by
  obtain ⟨h0, h1, h2⟩ := hinv
  cases hstep with
  | transferOwnership a b h =>
    obtain ⟨-, -, rfl⟩ := transferOwnership_ok h
    exact ⟨h0, h1, h2⟩
  | addProvider a p h =>
    obtain ⟨-, hd⟩ := addProvider_ok h
    rcases hd with rfl | rfl
    · exact ⟨h0, h1, h2⟩
    · exact ⟨h0, h1, h2⟩
  | removeProvider a p h =>
    obtain ⟨-, hd⟩ := removeProvider_ok h
    rcases hd with rfl | rfl
    · exact ⟨h0, h1, h2⟩
    · exact ⟨h0, h1, h2⟩
  | pause a h =>
    obtain ⟨-, -, rfl⟩ := pause_ok h
    exact ⟨h0, h1, h2⟩
  | unpause a h =>
    obtain ⟨-, -, rfl⟩ := unpause_ok h
    exact ⟨h0, h1, h2⟩
  | setCooldownSeconds a v h =>
    obtain ⟨-, rfl⟩ := setCooldownSeconds_ok h
    exact ⟨h0, h1, h2⟩
  | openBatch a now h =>
    obtain ⟨-, -, -, hopen, rfl⟩ := openBatch_ok h
    refine ⟨h0, ?_, ?_⟩
    · intro id hid
      by_cases hc : id = s.currentBatchId
      · exact hc
      · have : (s.batches id).isOpen = true := by
          simpa [setMap, hc] using hid
        exact h1 id this
    · have h2' : s.totalBatches = s.currentBatchId - 1 := by
        simpa [hopen] using h2
      simp [setMap]
      omega
  | closeBatch a now bid h =>
    obtain ⟨-, -, hbid, hopen, rfl⟩ := closeBatch_ok h
    subst hbid
    refine ⟨Nat.succ_le_succ (Nat.zero_le _), ?_, ?_⟩
    · intro id hid
      by_cases hc : id = s.currentBatchId
      · subst hc
        simp [setMap] at hid
      · have : (s.batches id).isOpen = true := by
          simpa [setMap, hc] using hid
        exact absurd (h1 id this) hc
    · have h2' : s.totalBatches = s.currentBatchId := by
        simpa [hopen] using h2
    -- the batch at the new counter value cannot be open
      have hnext : (s.batches (s.currentBatchId + 1)).isOpen = false := by
        cases hx : (s.batches (s.currentBatchId + 1)).isOpen with
        | false => rfl
        | true => exact absurd (h1 _ hx) (by omega)
      simp only [setMap]
      rw [if_neg (by omega : ¬ s.currentBatchId + 1 = s.currentBatchId)]
      rw [hnext]
      simp [h2']
  | submitUpdate a now bid p v h =>
    obtain ⟨-, -, -, hbid, hopen, -, -, rfl⟩ := submitUpdate_ok h
    subst hbid
    refine ⟨h0, ?_, ?_⟩
    · intro id hid
      by_cases hc : id = s.currentBatchId
      · exact hc
      · have : (s.batches id).isOpen = true := by
          simpa [setMap, hc] using hid
        exact h1 id this
    · have h2' : s.totalBatches = s.currentBatchId := by
        simpa [hopen] using h2
      simp [setMap, hopen, h2']
  | requestBatchDecryption a now bid rid h =>
    obtain ⟨-, -, rfl⟩ := requestBatchDecryption_ok h
    exact ⟨h0, h1, h2⟩
  | myCallback now rid clr prf chk h =>
    obtain ⟨-, -, pkg, veh, rest, -, rfl⟩ := myCallback_ok h
    exact ⟨h0, h1, h2⟩

theorem stateInv_reachable {s : ContractState} (h : Reachable s) : StateInv s := by
  induction h with
  | deploy sa d => exact stateInv_deploy sa d
  | step hr hs ih => exact stateInv_step ih hs

/-- Under the invariant, `requestBatchDecryption` can never succeed: its
guard demands a batch id strictly below the counter whose batch is still
open, which the invariant rules out. -/
theorem requestBatchDecryption_never_ok {s s' : ContractState} {a now bid rid : Nat}
    (hinv : StateInv s) (h : requestBatchDecryption s a now bid rid = .ok s') :
    False := by
  obtain ⟨hlt, hopen, -⟩ := requestBatchDecryption_ok h
  obtain ⟨-, h1, -⟩ := hinv
  have := h1 bid hopen
  omega

/-! Concrete demonstration states used by witnesses and counterexamples. -/

/-- Demonstration deployment: contract address 100, deployer address 1. -/
def demo0 : ContractState := deploy 100 1

/-- State after the deployer opens batch 1 at time 100. -/
def demo1 : ContractState := ((openBatch demo0 1 100).toOption).getD demo0

/-- State after the deployer submits handles (7, 9) at time 200. -/
def demo2 : ContractState := ((submitUpdate demo1 1 200 1 7 9).toOption).getD demo0

/-- State after the deployer closes batch 1 at time 300. -/
def demo3 : ContractState := ((closeBatch demo2 1 300 1).toOption).getD demo0

theorem demo1_ok : openBatch demo0 1 100 = .ok demo1 := rfl

theorem demo2_ok : submitUpdate demo1 1 200 1 7 9 = .ok demo2 := rfl

theorem demo3_ok : closeBatch demo2 1 300 1 = .ok demo3 := rfl

theorem reachable_demo1 : Reachable demo1 :=
  Reachable.step (Reachable.deploy 100 1) (Step.openBatch demo0 demo1 1 100 demo1_ok)

/-- State after the deployer pauses the demonstration deployment. -/
def demoPaused : ContractState := ((pause demo0 1).toOption).getD demo0

/-- State holding a completed disclosure request at requestId 7
(constructed directly to exercise the replay guard). -/
def demoProcessed : ContractState :=
  { demo0 with
    decryptionContexts := setMap demo0.decryptionContexts 7 ⟨1, 0, true⟩ }

/-- State holding a pending request at requestId 8 whose stored digest was
computed from handles (7, 9) while batch 1 currently holds (8, 9). -/
def demoMismatch : ContractState :=
  { demo0 with
    batches := setMap demo0.batches 1 ⟨1, false, 8, 9, 0⟩
    decryptionContexts := setMap demo0.decryptionContexts 8
      ⟨1, hashCiphertexts [7, 9] 100, false⟩ }

/-- State after the deployer transfers ownership to address 2. -/
def demoTransferred : ContractState :=
  ((transferOwnership demo0 1 2).toOption).getD demo0

/-! Claim theorems. -/

/-- Claim C1: the spec says `requestBatchDecryption` succeeds for a batch
in state Closed (authorized submitter, not paused, cooldown elapsed) —
"the Closed state of the referenced batch is the lifecycle precondition".
The code instead reverts `InvalidBatchId` for every closed batch: its
guard `batchId >= currentBatchId || !batches[batchId].isOpen` demands a
batch that is simultaneously below the counter and still open, which the
lifecycle never produces, contradicting the source's own comment "Must be
a closed batch". Concretely: after deploy, open batch 1, submit handles,
close batch 1, a request for batch 1 at time 400 (all cooldowns elapsed,
caller authorized, not paused) reverts `InvalidBatchId`. -/
theorem c1_request_on_closed_batch_reverts :
    requestBatchDecryption demo3 1 400 1 5 = .error .invalidBatchId := rfl

/-- Claim C2 counterexample: for requestId 5, for which no
DisclosureRequest was ever created, the callback does NOT fail with an
UnknownRequest error — the contract has no absence check and no such
error member; it falls through to the integrity comparison and reverts
`StateMismatch` (the stored digest is the all-zero default, which never
equals a recomputed digest). -/
theorem c2_counterexample :
    myCallback (deploy 100 1) 50 5 [1, 2] [] (fun _ _ _ => true) =
      .error .stateMismatch := rfl

/-- Claim C2 amended: for every requestId whose DisclosureRequest slot
was never written (it still holds the all-zero default record),
`myCallback` with any payload and proof fails — with `StateMismatch`
rather than an UnknownRequest error — and mutates no state. -/
theorem c2_unknown_request_fails (s : ContractState) (rid : Nat)
    (h : s.decryptionContexts rid = DecryptionContext.empty)
    (now : Nat) (clr prf : List Nat) (chk : Nat → List Nat → List Nat → Bool) :
    myCallback s now rid clr prf chk = .error .stateMismatch := by
  unfold myCallback
  rw [h]
  simp [DecryptionContext.empty, hashCiphertexts]

theorem c2_witness :
    myCallback (deploy 100 1) 50 6 [1, 2] [] (fun _ _ _ => true) =
      .error .stateMismatch :=
  c2_unknown_request_fails (deploy 100 1) 6 (by rfl) 50 [1, 2] []
    (fun _ _ _ => true)

/-- Claim C3 counterexample: while paused, `setCooldownSeconds` called by
the owner succeeds and changes the cooldown — it is not pause-gated, so
the claim that EVERY state-mutating operation fails with the paused error
while paused is false. -/
theorem c3_counterexample :
    demoPaused.paused = true ∧
    setCooldownSeconds demoPaused 1 123 =
      .ok { demoPaused with
        cooldownSeconds := 123
        eventLog := demoPaused.eventLog ++ [Event.CooldownSecondsSet 60 123] } :=
  ⟨rfl, rfl⟩

/-- Claim C3 amended: while paused, the batch lifecycle operations
(`openBatch`, `closeBatch`, `submitUpdate`) and `requestBatchDecryption`
fail with the paused error and mutate nothing; the administrative
operations `setCooldownSeconds`, `transferOwnership`, `addProvider` and
`removeProvider` are not pause-gated — called by the owner while paused
(with valid arguments) each succeeds and takes its usual effect, leaving
the system paused. -/
theorem c3_pause_gating (s : ContractState) (hp : s.paused = true) :
    (∀ a now, s.isProvider a = true → openBatch s a now = .error .pausedState) ∧
    (∀ a now bid, s.isProvider a = true →
      closeBatch s a now bid = .error .pausedState) ∧
    (∀ a now bid p v, s.isProvider a = true →
      submitUpdate s a now bid p v = .error .pausedState) ∧
    (∀ a now bid rid, s.isProvider a = true →
      requestBatchDecryption s a now bid rid = .error .pausedState) ∧
    (∀ v, ∃ s', setCooldownSeconds s s.owner v = .ok s' ∧
      s'.cooldownSeconds = v ∧ s'.paused = true) ∧
    (∀ b, b ≠ 0 → ∃ s', transferOwnership s s.owner b = .ok s' ∧
      s'.owner = b ∧ s'.paused = true) ∧
    (∀ p, p ≠ 0 → ∃ s', addProvider s s.owner p = .ok s' ∧
      s'.isProvider p = true ∧ s'.paused = true) ∧
    (∀ p, ∃ s', removeProvider s s.owner p = .ok s' ∧
      s'.isProvider p = false ∧ s'.paused = true) := by
  refine ⟨?_, ?_, ?_, ?_, ?_, ?_, ?_, ?_⟩
  · intro a now hprov
    simp [openBatch, hprov, hp]
  · intro a now bid hprov
    simp [closeBatch, hprov, hp]
  · intro a now bid p v hprov
    simp [submitUpdate, hprov, hp]
  · intro a now bid rid hprov
    simp [requestBatchDecryption, hprov, hp]
  · intro v
    refine ⟨{ s with
      cooldownSeconds := v
      eventLog := s.eventLog ++ [Event.CooldownSecondsSet s.cooldownSeconds v] },
      ?_, rfl, hp⟩
    unfold setCooldownSeconds
    rw [if_neg (not_not_intro rfl)]
  · intro b hb
    refine ⟨{ s with
      owner := b
      eventLog := s.eventLog ++ [Event.OwnershipTransferred s.owner b] },
      ?_, rfl, hp⟩
    unfold transferOwnership
    rw [if_neg (not_not_intro rfl), if_neg hb]
  · intro p hpne
    by_cases hc : s.isProvider p = true
    · refine ⟨s, ?_, hc, hp⟩
      unfold addProvider
      rw [if_neg (not_not_intro rfl), if_neg hpne, if_pos hc]
    · refine ⟨{ s with
        isProvider := setMap s.isProvider p true
        eventLog := s.eventLog ++ [Event.ProviderAdded p] },
        ?_, by simp [setMap], hp⟩
      unfold addProvider
      rw [if_neg (not_not_intro rfl), if_neg hpne, if_neg hc]
  · intro p
    by_cases hc : s.isProvider p = true
    · refine ⟨{ s with
        isProvider := setMap s.isProvider p false
        eventLog := s.eventLog ++ [Event.ProviderRemoved p] },
        ?_, by simp [setMap], hp⟩
      unfold removeProvider
      rw [if_neg (not_not_intro rfl), if_pos hc]
    · refine ⟨s, ?_, bool_ne_true hc, hp⟩
      unfold removeProvider
      rw [if_neg (not_not_intro rfl), if_neg hc]

theorem c3_witness : openBatch demoPaused 1 0 = .error .pausedState :=
  (c3_pause_gating demoPaused (by rfl)).1 1 0 (by rfl)

/-- Claim C4: over every sequence of successful transactions from
deployment, any batch that is open has id equal to `currentBatchId` (so
at most one batch is ever open), and a successful `closeBatch` increments
the counter by one, making the next `openBatch` target a fresh id. -/
theorem c4_single_open_batch (s : ContractState) (h : Reachable s) :
    (∀ id : Nat, (s.batches id).isOpen = true → id = s.currentBatchId) ∧
    (∀ a now bid s', closeBatch s a now bid = .ok s' →
      s'.currentBatchId = s.currentBatchId + 1) := by
  refine ⟨(stateInv_reachable h).2.1, ?_⟩
  intro a now bid s' hc
  obtain ⟨-, -, -, -, rfl⟩ := closeBatch_ok hc
  rfl

theorem c4_witness : 1 = demo1.currentBatchId :=
  (c4_single_open_batch demo1 reachable_demo1).1 1 (by rfl)

/-- Claim C5: a callback for an already-completed request reverts
`ReplayAttempt` whatever the payload — so the state is unchanged and the
completion event cannot be emitted a second time — and along any
reachable execution the completed flag of a request is never cleared, so
each request completes at most once. -/
theorem c5_replay_rejected (s : ContractState) (rid : Nat)
    (h : (s.decryptionContexts rid).processed = true) :
    (∀ now clr prf chk, myCallback s now rid clr prf chk = .error .replayAttempt) ∧
    (∀ t t' : ContractState, Reachable t → Step t t' →
      (t.decryptionContexts rid).processed = true →
      (t'.decryptionContexts rid).processed = true) := by
  constructor
  · intro now clr prf chk
    unfold myCallback
    rw [if_pos h]
  · intro t t' hr hstep hpr
    cases hstep with
    | transferOwnership a b h' =>
      obtain ⟨-, -, rfl⟩ := transferOwnership_ok h'
      exact hpr
    | addProvider a p h' =>
      obtain ⟨-, hd⟩ := addProvider_ok h'
      rcases hd with rfl | rfl
      · exact hpr
      · exact hpr
    | removeProvider a p h' =>
      obtain ⟨-, hd⟩ := removeProvider_ok h'
      rcases hd with rfl | rfl
      · exact hpr
      · exact hpr
    | pause a h' =>
      obtain ⟨-, -, rfl⟩ := pause_ok h'
      exact hpr
    | unpause a h' =>
      obtain ⟨-, -, rfl⟩ := unpause_ok h'
      exact hpr
    | setCooldownSeconds a v h' =>
      obtain ⟨-, rfl⟩ := setCooldownSeconds_ok h'
      exact hpr
    | openBatch a now h' =>
      obtain ⟨-, -, -, -, rfl⟩ := openBatch_ok h'
      exact hpr
    | closeBatch a now bid h' =>
      obtain ⟨-, -, -, -, rfl⟩ := closeBatch_ok h'
      exact hpr
    | submitUpdate a now bid p v h' =>
      obtain ⟨-, -, -, -, -, -, -, rfl⟩ := submitUpdate_ok h'
      exact hpr
    | requestBatchDecryption a now bid rid' h' =>
      exact absurd h'
        (fun hk => requestBatchDecryption_never_ok (stateInv_reachable hr) hk)
    | myCallback now rid' clr prf chk h' =>
      obtain ⟨-, -, pkg, veh, rest, -, rfl⟩ := myCallback_ok h'
      by_cases hc : rid = rid'
      · subst hc
        simp [setMap]
      · simpa [setMap, hc] using hpr

theorem c5_witness :
    myCallback demoProcessed 0 7 [] [] (fun _ _ _ => true) =
      .error .replayAttempt :=
  (c5_replay_rejected demoProcessed 7 (by rfl)).1 0 [] [] (fun _ _ _ => true)

/-- Claim C6: if a pending request's stored digest was computed from a
pair of handles different from the referenced batch's current pair, the
callback reverts `StateMismatch` whatever the payload, so the request
stays pending and nothing else changes. -/
theorem c6_state_mismatch (s : ContractState) (rid p0 v0 : Nat)
    (hpend : (s.decryptionContexts rid).processed = false)
    (hdig : (s.decryptionContexts rid).stateHash =
      hashCiphertexts [p0, v0] s.selfAddr)
    (hch : (s.batches (s.decryptionContexts rid).batchId).updatePackageIdEncrypted ≠ p0 ∨
           (s.batches (s.decryptionContexts rid).batchId).vehicleIdEncrypted ≠ v0)
    (now : Nat) (clr prf : List Nat)
    (chk : Nat → List Nat → List Nat → Bool) :
    myCallback s now rid clr prf chk = .error .stateMismatch := by
  have hne : hashCiphertexts
      [(s.batches (s.decryptionContexts rid).batchId).updatePackageIdEncrypted,
       (s.batches (s.decryptionContexts rid).batchId).vehicleIdEncrypted] s.selfAddr
      ≠ (s.decryptionContexts rid).stateHash := by
    rw [hdig]
    intro heq
    obtain ⟨he1, he2, -⟩ := hashCiphertexts_inj heq
    rcases hch with hc | hc
    · exact hc he1
    · exact hc he2
  unfold myCallback
  rw [if_neg (by simp [hpend]), if_pos hne]

theorem c6_witness :
    myCallback demoMismatch 0 8 [] [] (fun _ _ _ => true) =
      .error .stateMismatch :=
  c6_state_mismatch demoMismatch 8 7 9 (by rfl) (by rfl)
    (Or.inl (by decide)) 0 [] [] (fun _ _ _ => true)

/-- Claim C7: for the submission action class (`openBatch` and
`submitUpdate`, both guarded by `respectCooldown` over
`lastSubmissionTime`), a call by an authorized, unpaused actor strictly
before `lastSubmissionTime + cooldownSeconds` reverts `CooldownActive`
and records nothing, while a call at or after that instant whose other
preconditions hold succeeds and stores the call time as the actor's new
last submission time. -/
theorem c7_cooldown (s : ContractState) (a now : Nat)
    (hprov : s.isProvider a = true) (hp : s.paused = false) :
    (now < s.lastSubmissionTime a + s.cooldownSeconds →
      openBatch s a now = .error .cooldownActive ∧
      (∀ bid p v, submitUpdate s a now bid p v = .error .cooldownActive)) ∧
    (s.lastSubmissionTime a + s.cooldownSeconds ≤ now →
      ((s.batches s.currentBatchId).isOpen = false →
        ∃ s', openBatch s a now = .ok s' ∧ s'.lastSubmissionTime a = now) ∧
      (∀ p v, (s.batches s.currentBatchId).isOpen = true → p ≠ 0 → v ≠ 0 →
        ∃ s', submitUpdate s a now s.currentBatchId p v = .ok s' ∧
          s'.lastSubmissionTime a = now)) := by
  constructor
  · intro hlt
    constructor
    · simp [openBatch, hprov, hp, hlt]
    · intro bid p v
      simp [submitUpdate, hprov, hp, hlt]
  · intro hge
    constructor
    · intro hopen
      refine ⟨{ s with
        batches := setMap s.batches s.currentBatchId
          ⟨s.currentBatchId, true, 0, 0, now⟩
        totalBatches := s.totalBatches + 1
        lastSubmissionTime := setMap s.lastSubmissionTime a now
        eventLog := s.eventLog ++ [Event.BatchOpened s.currentBatchId now] },
        ?_, ?_⟩
      · unfold openBatch
        rw [if_neg (by simp [hprov]), if_neg (by simp [hp]),
          if_neg (Nat.not_lt.mpr hge), if_neg (by simp [hopen])]
      · simp [setMap]
    · intro p v hopen hpne hvne
      refine ⟨{ s with
        batches := setMap s.batches s.currentBatchId
          { s.batches s.currentBatchId with
            updatePackageIdEncrypted := p
            vehicleIdEncrypted := v
            timestamp := now }
        lastSubmissionTime := setMap s.lastSubmissionTime a now
        eventLog := s.eventLog ++
          [Event.UpdateSubmitted s.currentBatchId a p v now] },
        ?_, ?_⟩
      · unfold submitUpdate
        rw [if_neg (by simp [hprov]), if_neg (by simp [hp]),
          if_neg (Nat.not_lt.mpr hge), if_neg (not_not_intro rfl),
          if_neg (by simp [hopen]), if_neg (by simp [isInitializedHandle, hpne]),
          if_neg (by simp [isInitializedHandle, hvne])]
      · simp [setMap]

theorem c7_witness : openBatch demo0 1 10 = .error .cooldownActive :=
  ((c7_cooldown demo0 1 10 (by rfl) (by rfl)).1 (by decide)).1

/-- Claim C8: `openBatch` records the caller's submission-class
last-action time, and `submitUpdate` consults the same timer, so a
`submitUpdate` by the same actor strictly within `cooldownSeconds` of
their own successful `openBatch` always reverts `CooldownActive` — with
a positive cooldown, open-then-immediately-submit cannot succeed for a
single actor. -/
theorem c8_open_then_submit (s s' : ContractState) (a now now' bid p v : Nat)
    (hopen : openBatch s a now = .ok s')
    (hlt : now' < now + s'.cooldownSeconds) :
    submitUpdate s' a now' bid p v = .error .cooldownActive := by
  obtain ⟨hprov, hp, -, -, rfl⟩ := openBatch_ok hopen
  have hc : now' < (setMap s.lastSubmissionTime a now) a + s.cooldownSeconds := by
    simpa [setMap] using hlt
  unfold submitUpdate
  rw [if_neg (by simp [hprov]), if_neg (by simp [hp]), if_pos hc]

theorem c8_witness :
    submitUpdate demo1 1 100 1 7 9 = .error .cooldownActive :=
  c8_open_then_submit demo0 demo1 1 100 100 1 7 9 (by rfl) (by decide)

/-- Claim C9: in every reachable state the counter is at least 1 and
`totalBatches` equals `currentBatchId` when the batch at `currentBatchId`
is open and `currentBatchId - 1` otherwise — the bookkeeping that counts
successful opens against successful closes from the initial values
`totalBatches = 0`, `currentBatchId = 1`. -/
theorem c9_totalBatches (s : ContractState) (h : Reachable s) :
    1 ≤ s.currentBatchId ∧
    s.totalBatches =
      (if (s.batches s.currentBatchId).isOpen = true
       then s.currentBatchId else s.currentBatchId - 1) := by
  obtain ⟨h0, -, h2⟩ := stateInv_reachable h
  exact ⟨h0, h2⟩

theorem c9_witness :
    1 ≤ demo1.currentBatchId ∧
    demo1.totalBatches =
      (if (demo1.batches demo1.currentBatchId).isOpen = true
       then demo1.currentBatchId else demo1.currentBatchId - 1) :=
  c9_totalBatches demo1 reachable_demo1

/-- Claim C10: the deployer starts as both owner and authorized provider;
a successful `transferOwnership` assigns the owner and — beyond the audit
log entry — changes no other storage field. In particular the provider
set is untouched: a new owner who was not a provider still cannot open a
batch (reverts `NotProvider`) until separately authorized, while a
previous owner who was a provider remains one. -/
theorem c10_ownership_frame (sa d : Nat) (s s' : ContractState) (a b : Nat)
    (h : transferOwnership s a b = .ok s') :
    ((deploy sa d).owner = d ∧ (deploy sa d).isProvider d = true) ∧
    s'.owner = b ∧
    s'.isProvider = s.isProvider ∧
    s'.paused = s.paused ∧
    s'.cooldownSeconds = s.cooldownSeconds ∧
    s'.lastSubmissionTime = s.lastSubmissionTime ∧
    s'.lastDecryptionRequestTime = s.lastDecryptionRequestTime ∧
    s'.batches = s.batches ∧
    s'.currentBatchId = s.currentBatchId ∧
    s'.totalBatches = s.totalBatches ∧
    s'.decryptionContexts = s.decryptionContexts ∧
    (s.isProvider b = false → ∀ now, openBatch s' b now = .error .notProvider) ∧
    (s.isProvider a = true → s'.isProvider a = true) := by
  obtain ⟨-, -, rfl⟩ := transferOwnership_ok h
  refine ⟨⟨rfl, by simp [deploy, setMap]⟩,
    rfl, rfl, rfl, rfl, rfl, rfl, rfl, rfl, rfl, rfl, ?_, ?_⟩
  · intro hb now
    simp [openBatch, hb]
  · intro ha
    exact ha

theorem c10_witness : demoTransferred.owner = 2 :=
  (c10_ownership_frame 100 1 demo0 demoTransferred 1 2 (by rfl)).2.1

end OtaUpdateFHE
